import Mathlib

/-!
Verification of the CSV-export core of the reverse-WHOIS tool (`main.py`).

The program receives a JSON response, extracts its `results` array (a list of
loosely structured records), and writes it to a CSV file:

* `write_csv` (main.py lines 174-220) computes the sorted union of all field
  names (`all_keys`), turns each record into a row keyed by those columns
  (absent fields default to the empty string, list values are joined with
  `;`), and writes header plus rows through `csv.DictWriter`, re-raising any
  write error; it returns the file path.
* `main` (lines 337-350) skips the export and prints a "no matches" message
  when the `results` list is empty or the response's `count` object is truthy
  with a `total` field equal to `0`.

JSON-derived values are modelled by the inductive `Value` below (JSON floats
are not modelled; the numeric case covers integers, which is what the claims
exercise).  Python dictionaries are modelled as association lists.
-/

/-- A JSON-derived Python value as handled by `write_csv`: string, integer,
boolean, `None`, list, or nested dictionary. -/
inductive Value where
  | str : String → Value
  | num : Int → Value
  | bool : Bool → Value
  | null : Value
  | list : List Value → Value
  | dict : List (String × Value) → Value

/-- One result record: a Python dict from field name to value
(`result` in main.py line 196). -/
abbrev Record := List (String × Value)

mutual
/-- Python `repr` of a value (element conversion used by `str` on
containers).  String escaping inside `repr` is elided: the quotes are
modelled, escape sequences for exotic characters are not. -/
def pyRepr : Value → String
  | Value.str s => "\x27" ++ s ++ "\x27"
  | Value.num n => toString n
  | Value.bool b => if b then "True" else "False"
  | Value.null => "None"
  | Value.list l => "[" ++ String.intercalate ", " (pyReprList l) ++ "]"
  | Value.dict d => "\x7b" ++ String.intercalate ", " (pyReprDict d) ++ "\x7d"

/-- `repr` of each element of a Python list. -/
def pyReprList : List Value → List String
  | [] => []
  | v :: vs => pyRepr v :: pyReprList vs

/-- `repr` of each `key: value` entry of a Python dict. -/
def pyReprDict : List (String × Value) → List String
  | [] => []
  | kv :: kvs => ("\x27" ++ kv.1 ++ "\x27: " ++ pyRepr kv.2) :: pyReprDict kvs
end

/-- Python `str` of a value: the string itself for strings, `repr`-style
conversion otherwise. -/
def pyStr : Value → String
  | Value.str s => s
  | v => pyRepr v

/-- The list-flattening step of main.py lines 205-206: a list value becomes
its elements' `str` forms joined with `;`; any other value is kept as is. -/
def processedValue : Value → Value
  | Value.list l => Value.str (String.intercalate ";" (l.map pyStr))
  | v => v

/-- The conversion `csv.writer` applies to one cell when emitting a row:
`None` is written as the empty string, any other value is written as its
`str` form. -/
def csvField : Value → String
  | Value.null => ""
  | Value.str s => s
  | v => pyStr v

/-- The full rendering of one cell from the optional field value of the
source record (`none` = field absent): main.py line 204's
`result.get(key, "")`, then `processedValue`, then the `csv` module's
field conversion.  This is the spec's `renderCell`. -/
def renderCell (v? : Option Value) : String :=
  csvField (processedValue (v?.getD (Value.str "")))

/-- `result.get(key, "")` (main.py line 204). -/
def getField (r : Record) (k : String) : Value :=
  (List.lookup k r).getD (Value.str "")

/-- Field names of one record (`result.keys()`, main.py line 197). -/
def keysOf (r : Record) : List String := r.map Prod.fst

/-- Lexicographic comparison of character lists by code point, which is how
Python compares strings. -/
def lexLeb : List Char → List Char → Bool
  | [], _ => true
  | _ :: _, [] => false
  | c :: cs, d :: ds =>
    if c < d then true
    else if d < c then false
    else lexLeb cs ds

/-- Python string `<=` (lexicographic by code point). -/
def strLeb (a b : String) : Bool := lexLeb a.data b.data

/-- Insert one key into an already sorted key list. -/
def insertSorted (a : String) : List String → List String
  | [] => [a]
  | b :: bs => if strLeb a b then a :: b :: bs else b :: insertSorted a bs

/-- Sort a key list lexicographically (Python's `sorted` on the key set;
insertion sort is extensionally the unique sorted arrangement, see
`computeColumns_sorted_perm`). -/
def sortKeys (l : List String) : List String := l.foldr insertSorted []

/-- The key set accumulated over all records (main.py lines 195-197:
`all_keys.update(result.keys())`); the Python `set` is modelled as the
deduplicated list of all keys. -/
def all_keys (rs : List Record) : List String := ((rs.map keysOf).flatten).dedup

/-- main.py line 198: `all_keys = sorted(list(all_keys))`.  This is the
spec's `computeColumns`; its result is the CSV header (`ColumnSet`). -/
def computeColumns (rs : List Record) : List String := sortKeys (all_keys rs)

/-- The row dict built for one record (main.py lines 202-207): one entry per
column, in column order, with absent fields defaulted to `""` and list
values flattened. -/
def processedRow (cols : List String) (r : Record) : Record :=
  cols.map fun k => (k, processedValue (getField r k))

/-- `csv.DictWriter._dict_to_list`: with `extrasaction="raise"` a row dict
key outside the field names raises `ValueError` (modelled as `none`);
otherwise each field name is looked up in the row dict, defaulting to the
writer's `restval` `""`. -/
def dictToList (fieldnames : List String) (rowdict : Record) : Option (List Value) :=
  if rowdict.all (fun kv => fieldnames.contains kv.1) then
    some (fieldnames.map fun k => (List.lookup k rowdict).getD (Value.str ""))
  else none

/-- One emitted CSV data row: `DictWriter` field extraction followed by the
`csv` module's per-cell conversion. -/
def csvRow (fieldnames : List String) (rowdict : Record) : Option (List String) :=
  (dictToList fieldnames rowdict).map (fun l => l.map csvField)

/-- `writer.writerows(processed_results)` (main.py line 214): every record's
row in input order; a raised error anywhere aborts the write. -/
def csvRows : List Record → List String → Option (List (List String))
  | [], _ => some []
  | r :: rs, cols =>
    match csvRow cols (processedRow cols r), csvRows rs cols with
    | some row, some rows => some (row :: rows)
    | _, _ => none

/-- The complete CSV document produced by main.py lines 195-214: the header
(`writeheader` emits the field names) and the data rows. -/
def csvDoc (rs : List Record) : Option (List String × List (List String)) :=
  match csvRows rs (computeColumns rs) with
  | some rows => some (computeColumns rs, rows)
  | none => none

/-- Python `str.lower` (ASCII case folding; main.py line 186). -/
def pyLower (s : String) : String := String.mk (s.data.map Char.toLower)

/-- Python `str.endswith` (suffix test; main.py line 186). -/
def pyEndsWith (s suffix : String) : Bool := decide (suffix.data <:+ s.data)

/-- The default output filename of main.py line 190, with the
`%Y-%m-%d_%H-%M-%S` timestamp passed in as `now`. -/
def defaultFilename (now : String) : String := ("reverse_whois_" ++ now) ++ ".csv"

/-- Output filename selection (main.py lines 184-190).  `none` models an
absent `--output` flag; Python's `if output_filename:` also treats an empty
string as absent. -/
def makeFilename (output? : Option String) (now : String) : String :=
  match output? with
  | none => defaultFilename now
  | some f =>
    if f = "" then defaultFilename now
    else if pyEndsWith (pyLower f) ".csv" then f else f ++ ".csv"

/-- The output directory `<script_dir>/results` (main.py line 181),
abbreviated to its final component. -/
def resultsDir : String := "results"

/-- `os.path.join(results_dir, filename)` (main.py line 192). -/
def outPath (output? : Option String) (now : String) : String :=
  (resultsDir ++ "/") ++ makeFilename output? now

/-- The file-system state `write_csv` interacts with: the set of existing
directories, the files with their contents (one list of cells per CSV line),
and the paths whose `open(..., "w")` raises an `IOError`-class error
(permission denied, disk full, invalid path). -/
structure FS where
  dirs : List String
  files : List (String × List (List String))
  badPaths : List String
deriving DecidableEq

/-- `write_csv(results_data, output_filename)` (main.py lines 174-220) over
the explicit file-system state: `os.makedirs(results_dir, exist_ok=True)`,
filename selection, CSV shaping, then the guarded write, whose caught
exception is logged and re-raised (`Except.error`); on success the file is
created (or overwritten) and the path is returned. -/
def write_csv (fs : FS) (results_data : List Record) (output? : Option String)
    (now : String) : FS × Except String String :=
  let fs1 : FS :=
    { fs with dirs := if fs.dirs.contains resultsDir then fs.dirs else resultsDir :: fs.dirs }
  let filepath := outPath output? now
  if fs.badPaths.contains filepath then
    (fs1, Except.error "IOError")
  else
    match csvDoc results_data with
    | none => (fs1, Except.error "ValueError")
    | some (hdr, rows) =>
      ({ fs1 with
          files := (filepath, hdr :: rows) :: fs1.files.filter (fun p => p.1 != filepath) },
        Except.ok filepath)

/-- The part of the API response that main.py lines 326-342 consults:
`response.get("count")` (`none` when absent) and
`response.get("results", [])` (an absent field maps to `[]`). -/
structure ApiResponse where
  count : Option Record
  results : List Record

/-- Python `value == 0` for a JSON-derived value: true for the integer `0`
and for `False` (Python booleans compare equal to integers). -/
def pyIsZero : Value → Bool
  | Value.num n => n == 0
  | Value.bool b => !b
  | _ => false

/-- The guard of main.py line 338:
`not results_data or (count_info and count_info.get("total", 0) == 0)`.
An empty `count` dict is falsy in Python, so it behaves like an absent one. -/
def skipExport (resp : ApiResponse) : Bool :=
  resp.results.isEmpty ||
    (match resp.count with
     | some c => !c.isEmpty && pyIsZero ((List.lookup "total" c).getD (Value.num 0))
     | none => false)

/-- main.py lines 337-350: either print the no-matches message and leave the
file system untouched, or run `write_csv` and print the saved-file message
(a write error is logged and the process exits, printing nothing more). -/
def mainRun (fs : FS) (resp : ApiResponse) (output? : Option String) (now : String) :
    FS × List String :=
  if skipExport resp then (fs, ["No matches found for the query."])
  else
    match write_csv fs resp.results output? now with
    | (fs', Except.ok p) => (fs', ["Results saved to CSV file: " ++ p])
    | (fs', Except.error _) => (fs', [])

/-- The first record of the spec's round-trip scenario. -/
def recFoo : Record :=
  [("domain", Value.str "foo.com"), ("ns", Value.list [Value.str "ns1", Value.str "ns2"])]

/-- The second record of the spec's round-trip scenario. -/
def recBar : Record := [("domain", Value.str "bar.com")]

/-- An empty file-system state used by concrete witnesses. -/
def fsEmpty : FS := ⟨[], [], []⟩

/-- A file-system state in which the path `results/out.csv` cannot be
opened for writing. -/
def fsBad : FS := ⟨[], [], ["results/out.csv"]⟩

/-- The ordering proposition behind `strLeb`. -/
def strLe (a b : String) : Prop := strLeb a b = true

lemma lexLeb_total (l₁ l₂ : List Char) : lexLeb l₁ l₂ = true ∨ lexLeb l₂ l₁ = true := by
  induction l₁ generalizing l₂ with
  | nil => left; rfl
  | cons c cs ih =>
    cases l₂ with
    | nil => right; rfl
    | cons d ds =>
      rcases lt_trichotomy c d with h | h | h
      · left; simp [lexLeb, h]
      · subst h
        rcases ih ds with h' | h'
        · left; simp [lexLeb, lt_irrefl, h']
        · right; simp [lexLeb, lt_irrefl, h']
      · right; simp [lexLeb, h]

lemma lexLeb_trans {l₁ l₂ l₃ : List Char} (h₁ : lexLeb l₁ l₂ = true)
    (h₂ : lexLeb l₂ l₃ = true) : lexLeb l₁ l₃ = true := by
  induction l₁ generalizing l₂ l₃ with
  | nil => rfl
  | cons c cs ih =>
    cases l₂ with
    | nil => simp [lexLeb] at h₁
    | cons d ds =>
      cases l₃ with
      | nil => simp [lexLeb] at h₂
      | cons e es =>
        rcases lt_trichotomy c d with hcd | hcd | hcd
        · rcases lt_trichotomy d e with hde | hde | hde
          · simp [lexLeb, lt_trans hcd hde]
          · subst hde; simp [lexLeb, hcd]
          · simp [lexLeb, asymm hde, hde] at h₂
        · subst hcd
          rcases lt_trichotomy c e with hce | hce | hce
          · simp [lexLeb, hce]
          · subst hce
            simp only [lexLeb, lt_irrefl, if_false] at h₁ h₂ ⊢
            exact ih h₁ h₂
          · simp [lexLeb, asymm hce, hce] at h₂
        · simp [lexLeb, asymm hcd, hcd] at h₁

lemma lexLeb_antisymm {l₁ l₂ : List Char} (h₁ : lexLeb l₁ l₂ = true)
    (h₂ : lexLeb l₂ l₁ = true) : l₁ = l₂ := by
  induction l₁ generalizing l₂ with
  | nil =>
    cases l₂ with
    | nil => rfl
    | cons d ds => simp [lexLeb] at h₂
  | cons c cs ih =>
    cases l₂ with
    | nil => simp [lexLeb] at h₁
    | cons d ds =>
      rcases lt_trichotomy c d with hcd | hcd | hcd
      · simp [lexLeb, asymm hcd, hcd] at h₂
      · subst hcd
        simp only [lexLeb, lt_irrefl, if_false] at h₁ h₂
        rw [ih h₁ h₂]
      · simp [lexLeb, asymm hcd, hcd] at h₁

lemma strLe_total (a b : String) : strLe a b ∨ strLe b a := lexLeb_total a.data b.data

lemma strLe_trans {a b c : String} (h₁ : strLe a b) (h₂ : strLe b c) : strLe a c :=
  lexLeb_trans h₁ h₂

lemma strLe_antisymm {a b : String} (h₁ : strLe a b) (h₂ : strLe b a) : a = b :=
  String.ext (lexLeb_antisymm h₁ h₂)

instance : IsAntisymm String strLe := ⟨fun _ _ h₁ h₂ => strLe_antisymm h₁ h₂⟩

lemma insertSorted_perm (a : String) (l : List String) :
    (insertSorted a l).Perm (a :: l) := by
  induction l with
  | nil => exact List.Perm.refl _
  | cons b bs ih =>
    unfold insertSorted
    by_cases h : strLeb a b
    · simp [h]
    · simp only [h, if_false, Bool.false_eq_true]
      exact (ih.cons b).trans (List.Perm.swap a b bs)

lemma sortKeys_perm (l : List String) : (sortKeys l).Perm l := by
  induction l with
  | nil => exact List.Perm.refl _
  | cons a as ih => exact (insertSorted_perm a (sortKeys as)).trans (ih.cons a)

lemma sorted_insertSorted {a : String} {l : List String}
    (h : List.Sorted strLe l) : List.Sorted strLe (insertSorted a l) := by
  induction l with
  | nil => simp [insertSorted]
  | cons b bs ih =>
    rw [List.sorted_cons] at h
    obtain ⟨hb, hbs⟩ := h
    unfold insertSorted
    by_cases hab : strLeb a b = true
    · simp only [hab, if_true]
      rw [List.sorted_cons]
      refine ⟨fun x hx => ?_, List.sorted_cons.mpr ⟨hb, hbs⟩⟩
      rcases List.mem_cons.mp hx with rfl | hx'
      · exact hab
      · exact strLe_trans hab (hb x hx')
    · simp only [hab, if_false, Bool.false_eq_true]
      rw [List.sorted_cons]
      refine ⟨fun x hx => ?_, ih hbs⟩
      rcases List.mem_cons.mp ((insertSorted_perm a bs).mem_iff.mp hx) with rfl | hx'
      · exact (strLe_total _ _).resolve_left hab
      · exact hb x hx'

lemma sorted_sortKeys (l : List String) : List.Sorted strLe (sortKeys l) := by
  induction l with
  | nil => simp [sortKeys]
  | cons a as ih => exact sorted_insertSorted ih

lemma computeColumns_perm_eq {rs rs' : List Record} (h : rs.Perm rs') :
    computeColumns rs = computeColumns rs' := by
  have h1 : (all_keys rs).Perm (all_keys rs') := ((h.map keysOf).flatten).dedup
  exact List.eq_of_perm_of_sorted
    ((sortKeys_perm _).trans (h1.trans (sortKeys_perm _).symm))
    (sorted_sortKeys _) (sorted_sortKeys _)

lemma mem_computeColumns {rs : List Record} {k : String} :
    k ∈ computeColumns rs ↔ ∃ r ∈ rs, k ∈ keysOf r := by
  rw [computeColumns, (sortKeys_perm _).mem_iff, all_keys, List.mem_dedup, List.mem_flatten]
  constructor
  · rintro ⟨l, hl, hk⟩
    obtain ⟨r, hr, rfl⟩ := List.mem_map.mp hl
    exact ⟨r, hr, hk⟩
  · rintro ⟨r, hr, hk⟩
    exact ⟨keysOf r, List.mem_map.mpr ⟨r, hr, rfl⟩, hk⟩

lemma nodup_computeColumns (rs : List Record) : (computeColumns rs).Nodup :=
  ((sortKeys_perm (all_keys rs)).nodup_iff).mpr (List.nodup_dedup _)

lemma lookup_processedRow {cols : List String} {r : Record} {k : String} (hk : k ∈ cols) :
    List.lookup k (processedRow cols r) = some (processedValue (getField r k)) := by
  induction cols with
  | nil => cases hk
  | cons c cs ih =>
    simp only [processedRow, List.map_cons, List.lookup]
    by_cases h : k = c
    · subst h; simp
    · have hbeq : (k == c) = false := beq_eq_false_iff_ne.mpr h
      simp only [hbeq]
      exact ih (by rcases List.mem_cons.mp hk with h' | h'; exact absurd h' h; exact h')

lemma all_keys_processedRow (cols : List String) (r : Record) :
    (processedRow cols r).all (fun kv => cols.contains kv.1) = true := by
  rw [List.all_eq_true]
  intro kv hkv
  obtain ⟨k, hk, rfl⟩ := List.mem_map.mp hkv
  simpa [List.elem_iff] using hk

lemma csvRow_processedRow (cols : List String) (r : Record) :
    csvRow cols (processedRow cols r) =
      some (cols.map fun k => renderCell (List.lookup k r)) := by
  unfold csvRow dictToList
  rw [if_pos (all_keys_processedRow cols r)]
  simp only [Option.map_some', List.map_map]
  congr 1
  apply List.map_congr_left
  intro k hk
  simp only [Function.comp_apply, lookup_processedRow hk, Option.getD_some]
  rfl

lemma csvRows_eq (rs : List Record) (cols : List String) :
    csvRows rs cols = some (rs.map fun r => cols.map fun k => renderCell (List.lookup k r)) := by
  induction rs with
  | nil => rfl
  | cons r rs ih => simp [csvRows, csvRow_processedRow, ih]

lemma csvDoc_eq (rs : List Record) :
    csvDoc rs = some (computeColumns rs,
      rs.map fun r => (computeColumns rs).map fun k => renderCell (List.lookup k r)) := by
  simp [csvDoc, csvRows_eq]

lemma pyLower_append (a b : String) : pyLower (a ++ b) = pyLower a ++ pyLower b := by
  apply String.ext
  show (a ++ b).data.map Char.toLower = (pyLower a ++ pyLower b).data
  rw [String.data_append, String.data_append, List.map_append]
  rfl

lemma pyEndsWith_append_csv (s : String) : pyEndsWith (pyLower (s ++ ".csv")) ".csv" = true := by
  rw [pyLower_append]
  have h : pyLower ".csv" = ".csv" := by decide
  rw [h, pyEndsWith, decide_eq_true_eq, String.data_append]
  exact List.suffix_append _ _

lemma write_csv_err {fs : FS} (rs : List Record) (o : Option String) (now : String)
    (hb : outPath o now ∈ fs.badPaths) :
    write_csv fs rs o now =
      ({ dirs := if resultsDir ∈ fs.dirs then fs.dirs else resultsDir :: fs.dirs,
         files := fs.files, badPaths := fs.badPaths }, Except.error "IOError") := by
  simp [write_csv, hb]

lemma write_csv_ok {fs : FS} (rs : List Record) (o : Option String) (now : String)
    (hb : outPath o now ∉ fs.badPaths) :
    write_csv fs rs o now =
      ({ dirs := if resultsDir ∈ fs.dirs then fs.dirs else resultsDir :: fs.dirs,
         files := (outPath o now, computeColumns rs ::
             rs.map fun r => (computeColumns rs).map fun k => renderCell (List.lookup k r)) ::
           fs.files.filter (fun p => p.1 != outPath o now),
         badPaths := fs.badPaths }, Except.ok (outPath o now)) := by
  simp [write_csv, csvDoc_eq, hb]

lemma lookup_ne_nil {k : String} {c : Record} {v : Value}
    (h : List.lookup k c = some v) : c.isEmpty = false := by
  cases c with
  | nil => simp [List.lookup] at h
  | cons _ _ => rfl

lemma skip_of_total_zero {resp : ApiResponse} {c : Record} (hc : resp.count = some c)
    (ht : List.lookup "total" c = some (Value.num 0)) : skipExport resp = true := by
  have hne := lookup_ne_nil ht
  simp [skipExport, hc, ht, hne, pyIsZero]

/-- C1: a list value is rendered as its elements' string forms joined with
`;`, a null or absent value is rendered as the empty string, and any other
value is rendered as its natural string representation; in particular
`renderCell(["a","b","c"]) = "a;b;c"`, `renderCell([]) = ""`,
`renderCell(null) = ""`, and `renderCell(42) = "42"`. -/
theorem renderCell_spec :
    (∀ l, renderCell (some (Value.list l)) = String.intercalate ";" (l.map pyStr)) ∧
    renderCell none = "" ∧
    renderCell (some Value.null) = "" ∧
    (∀ v, (∀ l, v ≠ Value.list l) → v ≠ Value.null → renderCell (some v) = pyStr v) ∧
    renderCell (some (Value.list [Value.str "a", Value.str "b", Value.str "c"])) = "a;b;c" ∧
    renderCell (some (Value.list [])) = "" ∧
    renderCell (some (Value.num 42)) = "42" := by
  refine ⟨fun l => rfl, rfl, rfl, fun v hl hn => ?_, by decide, rfl, by decide⟩
  cases v with
  | str s => rfl
  | num n => rfl
  | bool b => rfl
  | null => exact absurd rfl hn
  | list l => exact absurd rfl (hl l)
  | dict d => rfl

/-- C1 witness: the "otherwise" clause evaluated at the integer 42. -/
theorem renderCell_spec_witness : renderCell (some (Value.num 42)) = pyStr (Value.num 42) :=
  renderCell_spec.2.2.2.1 (Value.num 42) (fun _ h => Value.noConfusion h)
    (fun h => Value.noConfusion h)

/-- C2: the CSV header is the lexicographically sorted union of all field
names across the batch: it is invariant under permutation of the records,
sorted, duplicate-free, and contains exactly the field names occurring in
some record. -/
theorem computeColumns_sorted_perm (rs rs' : List Record) (h : rs.Perm rs') :
    computeColumns rs = computeColumns rs' ∧
    List.Sorted strLe (computeColumns rs) ∧
    (computeColumns rs).Nodup ∧
    ∀ k, k ∈ computeColumns rs ↔ ∃ r ∈ rs, k ∈ keysOf r :=
  ⟨computeColumns_perm_eq h, sorted_sortKeys _, nodup_computeColumns rs,
    fun _ => mem_computeColumns⟩

/-- C2 witness: the header of the round-trip batch, in both record orders. -/
theorem computeColumns_sorted_perm_witness :
    computeColumns [recFoo, recBar] = computeColumns [recBar, recFoo] ∧
    List.Sorted strLe (computeColumns [recFoo, recBar]) ∧
    (computeColumns [recFoo, recBar]).Nodup ∧
    ∀ k, k ∈ computeColumns [recFoo, recBar] ↔ ∃ r ∈ [recFoo, recBar], k ∈ keysOf r :=
  computeColumns_sorted_perm [recFoo, recBar] [recBar, recFoo]
    (List.Perm.swap recBar recFoo [])

/-- C3: every data row has exactly as many cells as the header, in header
column order; the cell at column `hdr[j]` of the row for record `rs[i]` is
the rendering of that record's value for the column, the empty string when
the field is absent. -/
theorem rows_match_header (rs : List Record) (hdr : List String) (rows : List (List String))
    (h : csvDoc rs = some (hdr, rows)) (i j : Nat) (hi : i < rows.length)
    (hj : j < hdr.length) :
    hdr = computeColumns rs ∧
    rows.length = rs.length ∧
    rows[i].length = hdr.length ∧
    ∃ (hi2 : i < rs.length) (hj2 : j < rows[i].length),
      rows[i][j] = renderCell (List.lookup hdr[j] rs[i]) := by
  rw [csvDoc_eq] at h
  have h' := Option.some.inj h
  obtain ⟨h1, h2⟩ := Prod.ext_iff.mp h'
  subst h1
  subst h2
  refine ⟨rfl, by simp, by simp, ?_⟩
  have hi2 : i < rs.length := by simpa using hi
  refine ⟨hi2, by simpa using hj, ?_⟩
  simp [List.getElem_map]

/-- C3 witness: the row produced for `recFoo` alone. -/
theorem rows_match_header_witness :
    (["domain", "ns"] : List String) = computeColumns [recFoo] ∧
    ([["foo.com", "ns1;ns2"]] : List (List String)).length = ([recFoo] : List Record).length ∧
    (["foo.com", "ns1;ns2"] : List String).length = (["domain", "ns"] : List String).length ∧
    ∃ (_ : 0 < ([recFoo] : List Record).length)
      (_ : 1 < (["foo.com", "ns1;ns2"] : List String).length),
      "ns1;ns2" = renderCell (List.lookup "ns" recFoo) :=
  rows_match_header [recFoo] ["domain", "ns"] [["foo.com", "ns1;ns2"]] (by decide)
    0 1 (by decide) (by decide)

/-- C4 counterexample: the export of the round-trip batch does not produce
the data rows in the order the claim lists them (`bar.com` first); the
actual rows keep the original record order, with `foo.com` first. -/
theorem roundtrip_rows_order_false :
    csvDoc [recFoo, recBar] =
      some (["domain", "ns"], [["foo.com", "ns1;ns2"], ["bar.com", ""]]) ∧
    csvDoc [recFoo, recBar] ≠
      some (["domain", "ns"], [["bar.com", ""], ["foo.com", "ns1;ns2"]]) :=
  ⟨by decide, by decide⟩

/-- C4 amended: for the round-trip batch the export yields the sorted header
`["domain", "ns"]` and the data rows `["foo.com", "ns1;ns2"]` then
`["bar.com", ""]`, in original record order. -/
theorem roundtrip_rows :
    csvDoc [recFoo, recBar] =
      some (["domain", "ns"], [["foo.com", "ns1;ns2"], ["bar.com", ""]]) := by decide
/-- C5: an empty record batch is treated as "no data": the program prints
the no-matches message, skips the export, and leaves the file system (hence
any CSV file) untouched. -/
theorem empty_results_skips_export (fs : FS) (resp : ApiResponse) (o : Option String)
    (now : String) (h : resp.results = []) :
    skipExport resp = true ∧
    mainRun fs resp o now = (fs, ["No matches found for the query."]) := by
  have hs : skipExport resp = true := by simp [skipExport, h]
  exact ⟨hs, by simp [mainRun, hs]⟩

/-- C5 witness: an empty batch with a nonzero reported total still skips. -/
theorem empty_results_skips_export_witness :
    skipExport ⟨some [("total", Value.num 5)], []⟩ = true ∧
    mainRun fsEmpty ⟨some [("total", Value.num 5)], []⟩ none "t" =
      (fsEmpty, ["No matches found for the query."]) :=
  empty_results_skips_export fsEmpty ⟨some [("total", Value.num 5)], []⟩ none "t" rfl

/-- C6: `write_csv` ensures the output directory exists as a side effect;
when the destination cannot be opened for writing it surfaces the
`IOError`-class failure to the caller, and otherwise it returns the written
file path, with the file present afterwards. -/
theorem write_csv_dirs_and_errors (fs : FS) (rs : List Record) (o : Option String)
    (now : String) :
    resultsDir ∈ ((write_csv fs rs o now).1).dirs ∧
    (fs.badPaths.contains (outPath o now) = true →
      (write_csv fs rs o now).2 = Except.error "IOError") ∧
    (fs.badPaths.contains (outPath o now) = false →
      (write_csv fs rs o now).2 = Except.ok (outPath o now) ∧
      List.lookup (outPath o now) ((write_csv fs rs o now).1).files ≠ none) := by
  refine ⟨?_, ?_, ?_⟩
  · by_cases hb : outPath o now ∈ fs.badPaths
    · rw [write_csv_err rs o now hb]
      by_cases hd : resultsDir ∈ fs.dirs <;> simp [hd]
    · rw [write_csv_ok rs o now hb]
      by_cases hd : resultsDir ∈ fs.dirs <;> simp [hd]
  · intro hb
    rw [write_csv_err rs o now (by simpa using hb)]
  · intro hb
    rw [write_csv_ok rs o now (by simpa using hb)]
    exact ⟨rfl, by simp [List.lookup]⟩

/-- C6 witness: the error case at an unwritable path and the success case at
a writable one. -/
theorem write_csv_dirs_and_errors_witness :
    resultsDir ∈ ((write_csv fsBad [recBar] (some "out") "t").1).dirs ∧
    (write_csv fsBad [recBar] (some "out") "t").2 = Except.error "IOError" ∧
    (write_csv fsEmpty [recBar] (some "out") "t").2 = Except.ok (outPath (some "out") "t") :=
  ⟨(write_csv_dirs_and_errors fsBad [recBar] (some "out") "t").1,
   (write_csv_dirs_and_errors fsBad [recBar] (some "out") "t").2.1 (by decide),
   ((write_csv_dirs_and_errors fsEmpty [recBar] (some "out") "t").2.2 (by decide)).1⟩

/-- C7: cell rendering is a total function on all values, including
malformed nested structures: a nested mapping is rendered by the generic
Python string conversion instead of raising, also when it occurs inside a
list value. -/
theorem renderCell_malformed_total :
    (∀ d, renderCell (some (Value.dict d)) = pyStr (Value.dict d)) ∧
    renderCell (some (Value.dict [("a", Value.num 1)])) = "\x7b\x27a\x27: 1\x7d" ∧
    renderCell (some (Value.list [Value.dict [("k", Value.str "v")]])) =
      "\x7b\x27k\x27: \x27v\x27\x7d" :=
  ⟨fun _ => rfl, by decide, by decide⟩

/-- C8 counterexample: for the user-supplied empty output filename the code
does not append `.csv` to it (which would give `".csv"`); it falls back to
the timestamped default name instead, because Python's `if output_filename:`
treats the empty string as absent. -/
theorem makeFilename_empty_output :
    makeFilename (some "") "2025-01-01_00-00-00" = "reverse_whois_2025-01-01_00-00-00.csv" ∧
    makeFilename (some "") "2025-01-01_00-00-00" ≠ "" ++ ".csv" :=
  ⟨by decide, by decide⟩

/-- C8 amended: the written file's name always ends with `.csv`
(case-insensitively); a non-empty supplied name already ending in `.csv` in
any letter case is used unchanged, any other non-empty supplied name gets
`.csv` appended, and when no name or an empty name is supplied the name is
`reverse_whois_` + timestamp + `.csv`. -/
theorem makeFilename_spec (o : Option String) (now : String) :
    pyEndsWith (pyLower (makeFilename o now)) ".csv" = true ∧
    (∀ f, o = some f → f ≠ "" → pyEndsWith (pyLower f) ".csv" = true →
      makeFilename o now = f) ∧
    (∀ f, o = some f → f ≠ "" → pyEndsWith (pyLower f) ".csv" = false →
      makeFilename o now = f ++ ".csv") ∧
    ((o = none ∨ o = some "") → makeFilename o now = defaultFilename now) := by
  refine ⟨?_, ?_, ?_, ?_⟩
  · match o with
    | none => exact pyEndsWith_append_csv _
    | some f =>
      by_cases h0 : f = ""
      · subst h0
        exact pyEndsWith_append_csv _
      · by_cases hcsv : pyEndsWith (pyLower f) ".csv" = true
        · have hmk : makeFilename (some f) now = f := by simp [makeFilename, h0, hcsv]
          rw [hmk]
          exact hcsv
        · have hmk : makeFilename (some f) now = f ++ ".csv" := by
            simp [makeFilename, h0, hcsv]
          rw [hmk]
          exact pyEndsWith_append_csv f
  · intro f hf h0 hcsv
    subst hf
    simp [makeFilename, h0, hcsv]
  · intro f hf h0 hcsv
    subst hf
    simp [makeFilename, h0, hcsv]
  · rintro (rfl | rfl)
    · rfl
    · rfl

/-- C8 witness: a supplied name ending in upper-case `.CSV` is kept. -/
theorem makeFilename_spec_witness :
    pyEndsWith (pyLower (makeFilename (some "Data.CSV") "t")) ".csv" = true ∧
    makeFilename (some "Data.CSV") "t" = "Data.CSV" :=
  ⟨(makeFilename_spec (some "Data.CSV") "t").1,
   (makeFilename_spec (some "Data.CSV") "t").2.1 "Data.CSV" rfl (by decide) (by decide)⟩

/-- C9: whenever the response's count dict has a `total` field equal to `0`
the export is skipped and the no-matches message is printed, regardless of
the `results` array; conversely, the export runs only when `results` is
non-empty and no present count dict carries a zero `total`. -/
theorem skip_on_zero_total (resp : ApiResponse) (fs : FS) (o : Option String)
    (now : String) :
    (∀ c, resp.count = some c → List.lookup "total" c = some (Value.num 0) →
      skipExport resp = true ∧
      mainRun fs resp o now = (fs, ["No matches found for the query."])) ∧
    (skipExport resp = false →
      resp.results ≠ [] ∧
      ∀ c, resp.count = some c → List.lookup "total" c ≠ some (Value.num 0)) := by
  constructor
  · intro c hc ht
    have hs := skip_of_total_zero hc ht
    exact ⟨hs, by simp [mainRun, hs]⟩
  · intro h2
    constructor
    · intro hnil
      simp [skipExport, hnil] at h2
    · intro c hc ht
      exact absurd (skip_of_total_zero hc ht) (by simp [h2])

/-- C9 witness: a response with a non-empty `results` array but a zero
`total` still skips the export. -/
theorem skip_on_zero_total_witness :
    skipExport ⟨some [("total", Value.num 0)], [recBar]⟩ = true ∧
    mainRun fsEmpty ⟨some [("total", Value.num 0)], [recBar]⟩ none "t" =
      (fsEmpty, ["No matches found for the query."]) :=
  (skip_on_zero_total ⟨some [("total", Value.num 0)], [recBar]⟩ fsEmpty none "t").1
    [("total", Value.num 0)] rfl rfl

/-- C10: `write_csv` invoked directly with an empty record sequence does not
fail: it still creates (or overwrites) the CSV file, whose content is a
single empty header row, and returns its path — the no-file-on-empty-batch
behaviour is enforced only by the caller's guard. -/
theorem write_csv_empty_batch (fs : FS) (o : Option String) (now : String)
    (h : fs.badPaths.contains (outPath o now) = false) :
    (write_csv fs [] o now).2 = Except.ok (outPath o now) ∧
    List.lookup (outPath o now) ((write_csv fs [] o now).1).files =
      some [([] : List String)] := by
  rw [write_csv_ok [] o now (by simpa using h)]
  refine ⟨rfl, ?_⟩
  simp only [List.lookup, List.map_nil, beq_self_eq_true]
  rfl

/-- C10 witness: the empty batch written to a fresh file system. -/
theorem write_csv_empty_batch_witness :
    (write_csv fsEmpty [] (some "w") "t").2 = Except.ok (outPath (some "w") "t") ∧
    List.lookup (outPath (some "w") "t") ((write_csv fsEmpty [] (some "w") "t").1).files =
      some [([] : List String)] :=
  write_csv_empty_batch fsEmpty (some "w") "t" rfl

